import Mathlib

/-!
Shallow embedding of the hid-io-core protocol core: the host-side mailbox
router (`src/mailbox.rs`), the host-side endpoint controller
(`src/device/mod.rs`) and the firmware command interface
(`hid-io-kiibohd/src/lib.rs`).  Machine integers are modelled as `Nat`
(none of the verified paths overflow a `u64`/`u16`), Rust `Result` as
`Except`, mutable state as explicit state passing, and the broadcast
stream consumed by `ack_wait` as a list of messages (the end of the list
is the closed bus).
-/

namespace HidIoCore

/-- Packet types of the HID-IO protocol (`HidIoPacketType` in
`hid-io-protocol`, used by both `src/mailbox.rs` and `src/device/mod.rs`). -/
inductive HidIoPacketType where
  | Data
  | ACK
  | NAK
  | Sync
  | Continued
  | NAData
  | NAContinued
deriving DecidableEq, Repr

/-- A HID-IO packet buffer: packet type, 16-bit command id, per-chunk
length hint, payload bytes and completion flag (`HidIoPacketBuffer` of
`hid-io-protocol`, as used by the sources under verification). -/
structure HidIoPacketBuffer where
  ptype : HidIoPacketType := .Data
  id : Nat := 0
  max_len : Nat := 0
  data : List Nat := []
  done : Bool := false
deriving DecidableEq, Repr

/-- Mailbox addresses (`Address` in `src/mailbox.rs`). -/
inductive Address where
  | All
  | ApiCapnp (uid : Nat)
  | CancelSubscription (uid : Nat) (sid : Nat)
  | DeviceHidio (uid : Nat)
  | DeviceHid (uid : Nat)
  | DropSubscription
  | Module
deriving DecidableEq, Repr

/-- A mailbox message (`Message` in `src/mailbox.rs`): source address,
destination address and packet payload. -/
structure Message where
  src : Address
  dst : Address
  data : HidIoPacketBuffer
deriving DecidableEq, Repr

/-- Errors returned by `Mailbox::ack_wait` (`AckWaitError` in
`src/mailbox.rs`). -/
inductive AckWaitError where
  | TooManySyncs
  | NAKReceived (msg : Message)
  | Invalid
deriving DecidableEq, Repr

/-- The stream filter installed by `Mailbox::ack_wait`: keep messages whose
`src` equals the requested source and whose `data.id` equals the requested
command id (`src/mailbox.rs` line 216). -/
def ackWaitMatches (src : Address) (id : Nat) (m : Message) : Bool :=
  m.src = src && m.data.id = id

/-- The message loop of `Mailbox::ack_wait` (`src/mailbox.rs` lines
219-242), running over the already-filtered stream: Sync decrements the
sync budget (erroring with `TooManySyncs` when the budget is exhausted),
ACK returns the message, NAK errors with `NAKReceived`, all other packet
types are skipped; the end of the stream (closed bus) errors with
`Invalid`. -/
def ackWaitLoop : Nat → List Message → Except AckWaitError Message
  | _, [] => .error .Invalid
  | maxSyncs, m :: rest =>
    match m.data.ptype with
    | .Sync =>
      if maxSyncs = 0 then .error .TooManySyncs
      else ackWaitLoop (maxSyncs - 1) rest
    | .ACK => .ok m
    | .NAK => .error (.NAKReceived m)
    | .NAData => ackWaitLoop maxSyncs rest
    | .NAContinued => ackWaitLoop maxSyncs rest
    | .Continued => ackWaitLoop maxSyncs rest
    | .Data => ackWaitLoop maxSyncs rest

/-- `Mailbox::ack_wait` (`src/mailbox.rs` lines 207-243): subscribe to the
bus (modelled as the list of messages subsequently broadcast), filter by
source and command id, then run the ack-wait loop with the given sync
budget. -/
def ack_wait (src : Address) (id : Nat) (maxSyncs : Nat)
    (stream : List Message) : Except AckWaitError Message :=
  ackWaitLoop maxSyncs (stream.filter (ackWaitMatches src id))

/-- Modelled from the spec: `crate::api::Endpoint` is not under `src/`;
per spec section 3 an endpoint carries a monotonic UID, a string key and a
transport path (the mailbox code only calls its `uid()` and `path()`
accessors). -/
structure Endpoint where
  uid : Nat
  key : String
  path : String
deriving DecidableEq, Repr

/-- Mailbox registry state (`Mailbox` in `src/mailbox.rs`): the registered
nodes, the last assigned UID, and the key to recorded-UIDs lookup table
(the `HashMap<String, Vec<u64>>` modelled as an association list). -/
structure MailboxState where
  nodes : List Endpoint := []
  last_uid : Nat := 0
  lookup : List (String × List Nat) := []
deriving DecidableEq, Repr

/-- Reading `lookup.entry(key).or_default()`: the recorded UID list for a
key, defaulting to the empty list (inserting the empty entry itself is
invisible to every later read, so the state is left unchanged). -/
def lookupGet (l : List (String × List Nat)) (key : String) : List Nat :=
  match l.find? (fun e => e.1 = key) with
  | some e => e.2
  | none => []

/-- Appending a UID to a key's recorded list (`Mailbox::add_uid`,
`src/mailbox.rs` lines 133-137). -/
def lookupAdd (l : List (String × List Nat)) (key : String) (uid : Nat) :
    List (String × List Nat) :=
  match l with
  | [] => [(key, [uid])]
  | e :: rest =>
    if e.1 = key then (e.1, e.2 ++ [uid]) :: rest
    else e :: lookupAdd rest key uid

/-- The UID scan inside `Mailbox::get_uid` (`src/mailbox.rs` lines
111-126): walk the recorded UIDs in order; for the first node holding the
current UID, return `some 0` (the in-band "already registered" marker)
when its path matches, otherwise skip the UID; a UID held by no node is
returned as-is; an exhausted list yields `none`. -/
def scanUids (nodes : List Endpoint) (path : String) :
    List Nat → Option Nat
  | [] => none
  | uid :: rest =>
    match nodes.find? (fun n => n.uid = uid) with
    | some node =>
      if node.path = path then some 0
      else scanUids nodes path rest
    | none => some uid

/-- `Mailbox::get_uid` (`src/mailbox.rs` lines 106-130): attempt to locate
a reusable UID recorded for the key. -/
def get_uid (st : MailboxState) (key : String) (path : String) :
    Option Nat :=
  scanUids st.nodes path (lookupGet st.lookup key)

/-- `Mailbox::add_uid` (`src/mailbox.rs` lines 133-137). -/
def add_uid (st : MailboxState) (key : String) (uid : Nat) : MailboxState :=
  { st with lookup := lookupAdd st.lookup key uid }

/-- The error/ok outcome of `Mailbox::assign_uid` (`std::io::Error` is
carried as a unit marker, its message is not inspected anywhere). -/
abbrev AssignResult := Except Unit Nat

/-- `Mailbox::assign_uid` (`src/mailbox.rs` lines 143-160): reuse a
recorded UID when possible, error on the in-band `Some(0)` marker, and
otherwise increment `last_uid` and record the fresh UID for the key. -/
def assign_uid (st : MailboxState) (key : String) (path : String) :
    AssignResult × MailboxState :=
  match get_uid st key path with
  | some 0 => (.error (), st)
  | some uid => (.ok uid, st)
  | none =>
    let uid := st.last_uid + 1
    let st := { st with last_uid := uid }
    (.ok uid, add_uid st key uid)

/-- `Mailbox::register_node` (`src/mailbox.rs` lines 163-167). -/
def register_node (st : MailboxState) (e : Endpoint) : MailboxState :=
  { st with nodes := st.nodes ++ [e] }

/-- `Mailbox::unregister_node` (`src/mailbox.rs` lines 170-176): keep the
nodes whose UID differs. -/
def unregister_node (st : MailboxState) (uid : Nat) : MailboxState :=
  { st with nodes := st.nodes.filter (fun n => n.uid ≠ uid) }

/-- The message constructed and broadcast by `Mailbox::send_command`
(`src/mailbox.rs` lines 179-201): a completed Data packet with the default
`max_len` of 64 and the caller-supplied addresses. -/
def sendCommandMessage (src : Address) (dst : Address) (id : Nat)
    (data : List Nat) : Message :=
  { src, dst,
    data := { ptype := .Data, id, max_len := 64, data, done := true } }

/-- The reply broadcast by `Message::send_ack` (`src/mailbox.rs` lines
284-303): source and destination of the original message swapped, packet
replaced by a completed ACK with the original id. -/
def Message.sendAckMessage (m : Message) (data : List Nat) : Message :=
  { src := m.dst, dst := m.src,
    data := { ptype := .ACK, id := m.data.id, max_len := 64, data,
              done := true } }

/-- The reply broadcast by `Message::send_nak` (`src/mailbox.rs` lines
306-325): source and destination swapped, packet replaced by a completed
NAK with the original id. -/
def Message.sendNakMessage (m : Message) (data : List Nat) : Message :=
  { src := m.dst, dst := m.src,
    data := { ptype := .NAK, id := m.data.id, max_len := 64, data,
              done := true } }

/-! ## Host endpoint controller (`src/device/mod.rs`) -/

/-- Decode errors of the packet codec (`DecodeError` per spec section
4.1; the codec lives in `hid-io-protocol`, outside `src/`). -/
inductive DecodeError where
  | UnexpectedContinuation
  | UnexpectedHead
  | TypeMismatch
  | IdMismatch
  | LengthOverflow
deriving DecidableEq, Repr

/-- A single transport chunk, already framed: its packet type tag, command
id, payload bytes, and whether it is the final chunk of its packet (the
wire's continued flag negated).  This is the granularity at which spec
section 4.1 describes the decoder. -/
structure Chunk where
  ctype : HidIoPacketType
  id : Nat := 0
  payload : List Nat := []
  final : Bool := true
deriving DecidableEq, Repr

/-- `HidIoEndpoint::create_buffer` (`src/device/mod.rs` lines 75-79) /
`HidIoPacketBuffer::new`: a freshly-constructed reassembly buffer with the
endpoint's negotiated `max_len`. -/
def createBuffer (maxLen : Nat) : HidIoPacketBuffer :=
  { max_len := maxLen }

/-- A reassembly buffer is empty when it holds no partial packet: no
accumulated payload and not completed. -/
def bufferEmpty (b : HidIoPacketBuffer) : Bool :=
  b.data.isEmpty && !b.done

/-- Modelled from the spec: `HidIoPacketBuffer::decode_packet` lives in
`hid-io-protocol`, outside `src/`.  Spec section 4.1 (Decoder): feeding a
chunk either starts a new packet (only when the buffer is empty and the
chunk is a head), appends to the current packet (only when types are
compatible: Data with Continued, NaData with NaContinued), or fails with a
`DecodeError`; a Sync chunk always forcibly resets the buffer and emits a
Sync packet immediately; Sync, Ack, Nak never chain. -/
def decode_packet (b : HidIoPacketBuffer) (c : Chunk) :
    Except DecodeError HidIoPacketBuffer :=
  match c.ctype with
  | .Sync =>
    .ok { createBuffer b.max_len with ptype := .Sync, done := true }
  | .Continued =>
    if bufferEmpty b then .error .UnexpectedContinuation
    else if b.ptype = .Data then
      .ok { b with data := b.data ++ c.payload, done := c.final }
    else .error .TypeMismatch
  | .NAContinued =>
    if bufferEmpty b then .error .UnexpectedContinuation
    else if b.ptype = .NAData then
      .ok { b with data := b.data ++ c.payload, done := c.final }
    else .error .TypeMismatch
  | t =>
    if bufferEmpty b then
      .ok { b with ptype := t, id := c.id, data := c.payload,
                   done := c.final }
    else .error .UnexpectedHead

/-- One transport read observed by `HidIoEndpoint::recv_chunk`: nothing
available (a zero-length read), an I/O error, or a chunk of bytes (framed
as a `Chunk`, with its wire length). -/
inductive RecvEvent where
  | noData
  | ioError
  | chunk (len : Nat) (c : Chunk)
deriving DecidableEq, Repr

/-- Outcome of `HidIoEndpoint::recv_chunk` (`src/device/mod.rs` lines
52-73): the read length and updated buffer on success, a propagated I/O
error, or — on any decode error — process termination via
`std::process::exit(2)` (line 63). -/
inductive RecvResult where
  | ok (len : Nat) (buf : HidIoPacketBuffer)
  | ioErr
  | exited (code : Nat)
deriving DecidableEq, Repr

/-- `HidIoEndpoint::recv_chunk` (`src/device/mod.rs` lines 52-73): a
zero-length read leaves the buffer untouched; a non-empty read is fed to
the decoder, and a decode failure logs and terminates the whole process
with exit code 2. -/
def recv_chunk (buf : HidIoPacketBuffer) (ev : RecvEvent) : RecvResult :=
  match ev with
  | .noData => .ok 0 buf
  | .ioError => .ioErr
  | .chunk len c =>
    match decode_packet buf c with
    | .ok buf' => .ok len buf'
    | .error _ => .exited 2

/-- Terminal outcome of one `HidIoController::process` step
(`src/device/mod.rs` lines 147-222). -/
inductive ProcOutcome where
  | ok (ioEvents : Nat)
  | ioError
  | exited (code : Nat)
  | brokenPipe
deriving DecidableEq, Repr

/-- Observable result of one `HidIoController::process` step: the
outcome, the packets written to the transport (acks, syncs and forwarded
mailbox traffic, in order), the messages published on the mailbox, and
the controller's reassembly buffer afterwards. -/
structure ProcOut where
  outcome : ProcOutcome
  sent : List HidIoPacketBuffer
  published : List Message
  received : HidIoPacketBuffer
deriving DecidableEq, Repr

/-- The packet written by `HidIoEndpoint::send_ack` (`src/device/mod.rs`
lines 104-113): a completed ACK with the given id and payload and the
default `max_len` of 64. -/
def sendAckPacket (id : Nat) (data : List Nat) : HidIoPacketBuffer :=
  { ptype := .ACK, id, max_len := 64, data, done := true }

/-- The packet written by `HidIoEndpoint::send_sync` (`src/device/mod.rs`
lines 94-102). -/
def sendSyncPacket : HidIoPacketBuffer :=
  { ptype := .Sync, id := 0, max_len := 64, data := [], done := true }

/-- The mailbox-pull loop at the end of `HidIoController::process`
(`src/device/mod.rs` lines 199-220): forward every pending message
addressed to this endpoint to the transport with `max_len` stamped to the
negotiated chunk size, resetting the reassembly buffer when a Sync is
forwarded; a closed bus ends the step with a broken-pipe error. -/
def processPending (uid maxLen : Nat) (closed : Bool) (ioEvents : Nat)
    (received : HidIoPacketBuffer) (sent : List HidIoPacketBuffer)
    (published : List Message) : List Message → ProcOut
  | [] =>
    { outcome := if closed then .brokenPipe else .ok ioEvents,
      sent, published, received }
  | msg :: rest =>
    if msg.dst = Address.DeviceHidio uid then
      let out := { msg.data with max_len := maxLen }
      let received :=
        if msg.data.ptype = .Sync then createBuffer maxLen else received
      processPending uid maxLen closed ioEvents received (sent ++ [out])
        published rest
    else
      processPending uid maxLen closed ioEvents received sent published rest

/-- The packet-type match at the top of `HidIoController::process`
(`src/device/mod.rs` lines 151-168): when bytes were received, a Sync or
NAK resets the reassembly buffer and every other type leaves it as
decoded. -/
def matchPtypeReset (maxLen len : Nat) (buf : HidIoPacketBuffer) :
    HidIoPacketBuffer :=
  if 0 < len then
    match buf.ptype with
    | .Sync => createBuffer maxLen
    | .NAK => createBuffer maxLen
    | _ => buf
  else buf

/-- The mailbox publish of `HidIoController::process` (`src/device/mod.rs`
lines 180-187): a completed buffer is broadcast with the endpoint's own
HID-IO address as source and `All` as destination. -/
def publishIfDone (uid : Nat) (r : HidIoPacketBuffer) : List Message :=
  if r.done then [Message.mk (.DeviceHidio uid) .All r] else []

/-- `HidIoController::process` (`src/device/mod.rs` lines 147-222) as one
deterministic step.  Inputs beyond the controller state: the transport
read event, whether 5 seconds have elapsed since the last sync
(`last_sync.elapsed().as_secs() >= 5`), the queued mailbox messages, and
whether the broadcast bus is closed.  The step mirrors the source: (1)
receive and decode one chunk, resetting the buffer on Sync/NAK, then — for
any buffer left with `done` set — write an empty-payload ack; (2) publish
any completed buffer to the mailbox with `src = DeviceHidio{uid}`,
`dst = All` and reset it; (3) on sync timeout write a Sync, reset, and
return early; (4) otherwise drain the pending mailbox messages.
Transport writes are modelled as succeeding (their failure paths decide
no claim). -/
def process (uid maxLen : Nat) (received : HidIoPacketBuffer)
    (ev : RecvEvent) (syncElapsed : Bool) (pending : List Message)
    (closed : Bool) : ProcOut :=
  match recv_chunk received ev with
  | .ioErr =>
    { outcome := .ioError, sent := [], published := [], received }
  | .exited code =>
    { outcome := .exited code, sent := [], published := [], received }
  | .ok len buf =>
    let ioEvents := if 0 < len then 1 else 0
    let received := matchPtypeReset maxLen len buf
    let sent :=
      if 0 < len && received.done then [sendAckPacket received.id []]
      else []
    let published := publishIfDone uid received
    let received :=
      if received.done then createBuffer maxLen else received
    if syncElapsed then
      { outcome := .ok (ioEvents + 1), sent := sent ++ [sendSyncPacket],
        published, received := createBuffer maxLen }
    else
      processPending uid maxLen closed ioEvents received sent published
        pending

/-! ## Firmware command interface (`hid-io-kiibohd/src/lib.rs`) -/

/-- Status codes of the C-ABI surface (`HidioStatus`,
`hid-io-kiibohd/src/lib.rs` lines 123-135). -/
inductive HidioStatus where
  | Success
  | BufferEmpty
  | BufferNotReady
  | ErrorIdVecTooSmall
  | ErrorInvalidUTF8
  | ErrorBufSizeTooLarge
  | ErrorBufSizeTooSmall
  | ErrorBufFull
  | ErrorDetailed
  | ErrorNotInitialized
deriving DecidableEq, Repr

/-- `BufChunk = U64`: bytes per transport chunk
(`hid-io-kiibohd/src/lib.rs` line 41). -/
def BufChunk : Nat := 64

/-- `RxBuf = U8`: rx buffer capacity in chunks
(`hid-io-kiibohd/src/lib.rs` line 44). -/
def RxBuf : Nat := 8

/-- `TxBuf = U8`: tx buffer capacity in chunks
(`hid-io-kiibohd/src/lib.rs` line 46). -/
def TxBuf : Nat := 8

/-- The rx/tx byte buffers of the firmware interface: fixed-capacity FIFOs
of whole byte chunks (`CommandInterface::rx_bytebuf` / `tx_bytebuf`). -/
structure ByteBufState where
  rx_bytebuf : List (List Nat) := []
  tx_bytebuf : List (List Nat) := []
deriving DecidableEq, Repr

/-- Modelled from the spec: `buffer::Buffer::enqueue` lives in
`hid-io-protocol`, outside `src/`.  Spec section 4.2: a fixed-capacity
FIFO of whole chunks, `enqueue(chunk) -> Ok | Full`. -/
def bufEnqueue (cap : Nat) (buf : List (List Nat)) (chunk : List Nat) :
    Except Unit (List (List Nat)) :=
  if buf.length < cap then .ok (buf ++ [chunk]) else .error ()

/-- `hidio_rx_bytes` (`hid-io-kiibohd/src/lib.rs` lines 230-257): the
incoming chunk is `len` bytes (modelled as the list itself); the length
gate compares against `RxBuf` (line 232); `Vec::from_slice` fails for
chunks over `BufChunk` bytes; the chunk is then enqueued into the rx byte
buffer.  Returns the status and the updated interface state. -/
def hidio_rx_bytes (intf : Option ByteBufState) (bytes : List Nat) :
    HidioStatus × Option ByteBufState :=
  if bytes.length > RxBuf then (.ErrorBufSizeTooLarge, intf)
  else
    match intf with
    | none => (.ErrorNotInitialized, none)
    | some st =>
      if bytes.length > BufChunk then (.ErrorBufSizeTooSmall, some st)
      else
        match bufEnqueue RxBuf st.rx_bytebuf bytes with
        | .ok rx => (.Success, some { st with rx_bytebuf := rx })
        | .error _ => (.ErrorBufFull, some st)

/-- `hidio_tx_bytes` (`hid-io-kiibohd/src/lib.rs` lines 265-290): the
caller's buffer length is gated against `TxBuf` in both directions (lines
267-271), then one chunk is dequeued from the tx byte buffer and `len` of
its bytes are copied out.  Returns the status, the bytes written to the
caller's buffer, and the updated interface state. -/
def hidio_tx_bytes (intf : Option ByteBufState) (len : Nat) :
    HidioStatus × List Nat × Option ByteBufState :=
  if len > TxBuf then (.ErrorBufSizeTooLarge, [], intf)
  else if len < TxBuf then (.ErrorBufSizeTooSmall, [], intf)
  else
    match intf with
    | none => (.ErrorNotInitialized, [], none)
    | some st =>
      match st.tx_bytebuf with
      | [] => (.BufferEmpty, [], some st)
      | chunk :: rest =>
        (.Success, chunk.take len, some { st with tx_bytebuf := rest })

/-- The `h0001::Property` request/ack properties.  Modelled from the spec:
the enum lives in `hid-io-protocol`, outside `src/`; spec section 4.3
lists the twelve properties, plus an Unknown variant for unrecognized
codes. -/
inductive Property where
  | Unknown
  | MajorVersion
  | MinorVersion
  | PatchVersion
  | DeviceName
  | DeviceSerialNumber
  | DeviceMCU
  | FirmwareName
  | FirmwareVersion
  | DeviceVendor
  | OsType
  | OsVersion
  | HostSoftwareName
deriving DecidableEq, Repr

/-- Modelled from the spec: the numeric discriminant of a property
(`data.property as u8`); the spec fixes no numbering, so the variants are
numbered in listing order — the claims depend only on the error carrying
the property's code. -/
def propertyCode : Property → Nat
  | .Unknown => 0
  | .MajorVersion => 1
  | .MinorVersion => 2
  | .PatchVersion => 3
  | .DeviceName => 4
  | .DeviceSerialNumber => 5
  | .DeviceMCU => 6
  | .FirmwareName => 7
  | .FirmwareVersion => 8
  | .DeviceVendor => 9
  | .OsType => 10
  | .OsVersion => 11
  | .HostSoftwareName => 12

/-- The command dispatcher error surface (`CommandError` in
`hid-io-protocol`, as matched by `hid-io-kiibohd/src/lib.rs`); only the
variants the embedded code constructs are carried with their data. -/
inductive CommandError where
  | IdVecTooSmall
  | SerializationVecTooSmall
  | SerializationFailed
  | TxBufferVecTooSmall
  | TxBufferSendFailed
  | PacketDecodeError (e : DecodeError)
  | InvalidCStr
  | DataVecTooSmall
  | CallbackFailed
  | InvalidProperty8 (code : Nat)
  | UnsupportedId (id : Nat)
deriving DecidableEq, Repr

/-- The device-side host-info record together with the two backing string
fields (`CommandInterface::hostinfo` holds pointers into
`CommandInterface::os_version` / `host_software_name`,
`hid-io-kiibohd/src/lib.rs` lines 148-155 and 543-545). -/
structure HidioHostInfo where
  major_version : Nat := 0
  minor_version : Nat := 0
  patch_version : Nat := 0
  os : Nat := 0
  os_version : String := ""
  host_software_name : String := ""
deriving DecidableEq, Repr

/-- An `h0001::Ack` as handled by the response handler: the property, the
OS-type discriminant (`data.os as u8`), the numeric value and the string
value. -/
structure InfoAck where
  property : Property
  os : Nat := 0
  number : Nat := 0
  string : String := ""
deriving DecidableEq, Repr

/-- `CommandInterface::h0001_info_ack` (`hid-io-kiibohd/src/lib.rs` lines
797-828): store the acked property into the host-info record; any other
property is rejected with `InvalidProperty8` and the record is left
untouched. -/
def h0001_info_ack (a : InfoAck) (st : HidioHostInfo) :
    Except CommandError HidioHostInfo :=
  match a.property with
  | .MajorVersion => .ok { st with major_version := a.number }
  | .MinorVersion => .ok { st with minor_version := a.number }
  | .PatchVersion => .ok { st with patch_version := a.number }
  | .OsType => .ok { st with os := a.os }
  | .OsVersion => .ok { st with os_version := a.string }
  | .HostSoftwareName => .ok { st with host_software_name := a.string }
  | p => .error (.InvalidProperty8 (propertyCode p))

/-- An `h0002::Cmd` / `h0002::Ack` payload (the Test command's data). -/
structure TestPayload where
  data : List Nat
deriving DecidableEq, Repr

/-- An `h0002::Nak` (carries nothing). -/
structure TestNak where
deriving DecidableEq, Repr

/-- `CommandInterface::h0002_test_cmd` (`hid-io-kiibohd/src/lib.rs` lines
830-832): ack with the request's own data. -/
def h0002_test_cmd (c : TestPayload) : Except TestNak TestPayload :=
  .ok { data := c.data }

/-- `HidIoPacketBuffer::clear`: reset the reassembly buffer to its
freshly-constructed state, keeping the configured `max_len` (the codec
lives in `hid-io-protocol`; per spec section 4.1 the post-reset state
equals the freshly-constructed state). -/
def clearBuffer (b : HidIoPacketBuffer) : HidIoPacketBuffer :=
  createBuffer b.max_len

/-- State of the firmware dispatcher's rx path
(`CommandInterface::rx_bytebuf`, `rx_packetbuf`): the queued rx chunks,
the reassembly buffer, and — for observing the dispatcher — the list of
completed packets routed to `rx_message_handling` so far. -/
structure DispatchState where
  rx_bytebuf : List Chunk := []
  rx_packetbuf : HidIoPacketBuffer := {}
  handled : List HidIoPacketBuffer := []
deriving DecidableEq, Repr

/-- Modelled from the spec: `Commands::rx_message_handling` lives in
`hid-io-protocol`, outside `src/`.  Spec section 4.3: it routes one
completed packet to the matching typed handler; the model records the
routed packet. -/
def rx_message_handling (st : DispatchState) (pb : HidIoPacketBuffer) :
    DispatchState :=
  { st with handled := st.handled ++ [pb] }

/-- `CommandInterface::rx_packetbuffer_decode`
(`hid-io-kiibohd/src/lib.rs` lines 605-633): dequeue rx chunks into the
decoder until a packet completes (consuming completed Sync packets by
clearing the buffer and continuing), returning `true` with the remaining
chunks and completed buffer, `false` when the rx buffer ran empty, or the
decode error. -/
def rx_packetbuffer_decode :
    List Chunk → HidIoPacketBuffer →
    Except CommandError (Bool × List Chunk × HidIoPacketBuffer)
  | [], pb => .ok (false, [], pb)
  | c :: rest, pb =>
    match decode_packet pb c with
    | .error e => .error (.PacketDecodeError e)
    | .ok pb' =>
      if pb'.done then
        match pb'.ptype with
        | .Sync => rx_packetbuffer_decode rest (clearBuffer pb')
        | _ => .ok (true, rest, pb')
      else rx_packetbuffer_decode rest pb'

/-- The loop of `CommandInterface::process_rx`
(`hid-io-kiibohd/src/lib.rs` lines 638-654): while the budget allows
(`count == 0 || cur < count`), decode one completed packet, route it to
`rx_message_handling`, clear the reassembly buffer and count it. -/
def process_rx_aux (count cur : Nat) (st : DispatchState) :
    Except CommandError (Nat × DispatchState) :=
  if count = 0 ∨ cur < count then
    match h : rx_packetbuffer_decode st.rx_bytebuf st.rx_packetbuf with
    | .error e => .error e
    | .ok (false, rx', pb') =>
      .ok (cur, { st with rx_bytebuf := rx', rx_packetbuf := pb' })
    | .ok (true, rx', pb') =>
      let st' := rx_message_handling
        { st with rx_bytebuf := rx', rx_packetbuf := pb' } pb'
      process_rx_aux count (cur + 1)
        { st' with rx_packetbuf := clearBuffer pb' }
  else .ok (cur, st)
termination_by st.rx_bytebuf.length
decreasing_by
  have key : ∀ (rx : List Chunk) (pb : HidIoPacketBuffer) rx' pb',
      rx_packetbuffer_decode rx pb = .ok (true, rx', pb') →
      rx'.length < rx.length := by
    intro rx
    induction rx with
    | nil => intro pb rx' pb' hd; simp [rx_packetbuffer_decode] at hd
    | cons c rest ih =>
      intro pb rx' pb' hd
      simp only [rx_packetbuffer_decode] at hd
      cases hdc : decode_packet pb c with
      | error e => rw [hdc] at hd; simp at hd
      | ok pbd =>
        rw [hdc] at hd
        simp only at hd
        by_cases hdone : pbd.done = true
        · rw [hdone] at hd
          simp only [if_true] at hd
          cases hp : pbd.ptype <;> rw [hp] at hd <;> simp_all <;>
            exact Nat.lt_succ_of_lt (ih _ _ _ hd)
        · rw [Bool.not_eq_true] at hdone
          rw [hdone] at hd
          simp only [Bool.false_eq_true, if_false] at hd
          exact Nat.lt_succ_of_lt (ih _ _ _ hd)
  simp only [rx_message_handling]
  exact key _ _ _ _ h

/-- `CommandInterface::process_rx` (`hid-io-kiibohd/src/lib.rs` lines
638-654). -/
def process_rx (count : Nat) (st : DispatchState) :
    Except CommandError (Nat × DispatchState) :=
  process_rx_aux count 0 st

/-- `hidio_rx_process` (`hid-io-kiibohd/src/lib.rs` lines 300-326):
forward to `process_rx`, mapping a positive count of processed packets to
`Success`, zero to `BufferNotReady`, and any dispatcher error to
`ErrorDetailed` (the interface state on the error path is not tracked; no
claim reads it). -/
def hidio_rx_process (intf : Option DispatchState) (count : Nat) :
    HidioStatus × Option DispatchState :=
  match intf with
  | none => (.ErrorNotInitialized, none)
  | some st =>
    match process_rx count st with
    | .ok (n, st') =>
      (if 0 < n then .Success else .BufferNotReady, some st')
    | .error _ => (.ErrorDetailed, some st)

/-! ## Statement-level helper predicates and concrete scenario states -/

/-- Number of Sync-typed messages in a list (used to state the ack-wait
sync-budget properties). -/
def syncCount (l : List Message) : Nat :=
  l.countP (fun m => m.data.ptype = HidIoPacketType.Sync)

/-- The first registered node holding a UID, as scanned by
`Mailbox::get_uid`. -/
def findNode (st : MailboxState) (uid : Nat) : Option Endpoint :=
  st.nodes.find? (fun n => n.uid = uid)

/-- The UID is held by a live node whose path equals `path`. -/
def heldSamePath (st : MailboxState) (path : String) (uid : Nat) : Prop :=
  ∃ n, findNode st uid = some n ∧ n.path = path

/-- The UID is held by a live node whose path differs from `path`. -/
def heldOtherPath (st : MailboxState) (path : String) (uid : Nat) : Prop :=
  ∃ n, findNode st uid = some n ∧ n.path ≠ path

/-- The UID is held by no live node. -/
def uidFree (st : MailboxState) (uid : Nat) : Prop :=
  findNode st uid = none

/-- Mailbox registry well-formedness: every live node's UID and every
recorded UID was handed out by the monotonic counter (so lies between 1
and `last_uid`).  Holds for every state reachable through
`assign_uid`/`register_node`/`unregister_node` from the initial state. -/
def WFMailbox (st : MailboxState) : Prop :=
  (∀ n ∈ st.nodes, n.uid ≤ st.last_uid) ∧
  (∀ e ∈ st.lookup, ∀ u ∈ e.2, 1 ≤ u ∧ u ≤ st.last_uid)

/-- A reachable mailbox state with a live `(kbd, /B)` node and an older
released UID recorded for the same key: register `(kbd, /A)` as UID 1 and
`(kbd, /B)` as UID 2, then unregister UID 1. -/
def c4State : MailboxState :=
  let r1 := assign_uid {} "kbd" "/A"
  let st1 := register_node r1.2 { uid := 1, key := "kbd", path := "/A" }
  let r2 := assign_uid st1 "kbd" "/B"
  let st2 := register_node r2.2 { uid := 2, key := "kbd", path := "/B" }
  unregister_node st2 1

/-! ## Shared helper lemmas -/

/-- The mailbox-pull loop of `process` publishes nothing of its own. -/
theorem processPending_published (uid maxLen : Nat) (closed : Bool)
    (ioEvents : Nat) :
    ∀ (pending : List Message) (received : HidIoPacketBuffer)
      (sent : List HidIoPacketBuffer) (published : List Message),
      (processPending uid maxLen closed ioEvents received sent published
        pending).published = published := by
  intro pending
  induction pending with
  | nil => intro received sent published; rfl
  | cons msg rest ih =>
    intro received sent published
    simp only [processPending]
    by_cases h : msg.dst = Address.DeviceHidio uid <;> simp [h, ih]

/-- Everything `process` publishes is a broadcast from this endpoint's
own HID-IO address. -/
theorem process_published_shape (uid maxLen : Nat)
    (received : HidIoPacketBuffer) (ev : RecvEvent) (syncElapsed : Bool)
    (pending : List Message) (closed : Bool) :
    (process uid maxLen received ev syncElapsed pending
        closed).published = [] ∨
    ∃ d, (process uid maxLen received ev syncElapsed pending
        closed).published = [Message.mk (.DeviceHidio uid) .All d] := by
  cases hr : recv_chunk received ev with
  | ioErr => left; simp [process, hr]
  | exited code => left; simp [process, hr]
  | ok len buf =>
    have hshape : ∀ r, publishIfDone uid r = [] ∨
        ∃ d, publishIfDone uid r = [Message.mk (.DeviceHidio uid) .All d] := by
      intro r
      unfold publishIfDone
      split
      · right; exact ⟨_, rfl⟩
      · left; rfl
    simp only [process, hr]
    split
    · exact hshape _
    · rw [processPending_published]
      exact hshape _

/-- Skipping a run of non-ACK/non-NAK messages: the ack-wait loop crosses
it while spending one unit of sync budget per Sync, and errors with
`TooManySyncs` as soon as the budget would go negative. -/
theorem ackWaitLoop_skip :
    ∀ (pre suf : List Message) (n : Nat),
      (∀ m ∈ pre, m.data.ptype ≠ HidIoPacketType.ACK ∧
                  m.data.ptype ≠ HidIoPacketType.NAK) →
      (syncCount pre ≤ n →
        ackWaitLoop n (pre ++ suf) =
          ackWaitLoop (n - syncCount pre) suf) ∧
      (n < syncCount pre →
        ackWaitLoop n (pre ++ suf) = .error .TooManySyncs) := by
  intro pre
  induction pre with
  | nil =>
    intro suf n _
    refine ⟨fun _ => ?_, fun hlt => ?_⟩
    · simp [syncCount]
    · simp [syncCount] at hlt
  | cons m rest ih =>
    intro suf n h
    have hm := h m (by simp)
    have hrest : ∀ x ∈ rest,
        x.data.ptype ≠ HidIoPacketType.ACK ∧
        x.data.ptype ≠ HidIoPacketType.NAK :=
      fun x hx => h x (by simp [hx])
    have hcons : ∀ k, ackWaitLoop k ((m :: rest) ++ suf) =
        match m.data.ptype with
        | .Sync =>
          if k = 0 then .error .TooManySyncs
          else ackWaitLoop (k - 1) (rest ++ suf)
        | .ACK => .ok m
        | .NAK => .error (.NAKReceived m)
        | _ => ackWaitLoop k (rest ++ suf) := by
      intro k
      cases hp : m.data.ptype <;> simp [ackWaitLoop, hp]
    cases hp : m.data.ptype with
    | ACK => exact absurd hp hm.1
    | NAK => exact absurd hp hm.2
    | Sync =>
      have hcount : syncCount (m :: rest) = syncCount rest + 1 := by
        simp [syncCount, List.countP_cons, hp]
      refine ⟨fun hle => ?_, fun hlt => ?_⟩
      · rw [hcons, hp]
        have hn : n ≠ 0 := by omega
        simp only [hn, if_false]
        rw [(ih suf (n - 1) hrest).1 (by omega), hcount]
        congr 1
        omega
      · rw [hcons, hp]
        by_cases hn : n = 0
        · simp [hn]
        · simp only [hn, if_false]
          exact (ih suf (n - 1) hrest).2 (by omega)
    | Data =>
      have hcount : syncCount (m :: rest) = syncCount rest := by
        simp [syncCount, List.countP_cons, hp]
      rw [hcons, hp, hcount]
      exact ih suf n hrest
    | Continued =>
      have hcount : syncCount (m :: rest) = syncCount rest := by
        simp [syncCount, List.countP_cons, hp]
      rw [hcons, hp, hcount]
      exact ih suf n hrest
    | NAData =>
      have hcount : syncCount (m :: rest) = syncCount rest := by
        simp [syncCount, List.countP_cons, hp]
      rw [hcons, hp, hcount]
      exact ih suf n hrest
    | NAContinued =>
      have hcount : syncCount (m :: rest) = syncCount rest := by
        simp [syncCount, List.countP_cons, hp]
      rw [hcons, hp, hcount]
      exact ih suf n hrest

/-- A decode round returning `false` has drained the rx buffer. -/
theorem rx_decode_false_empty :
    ∀ (rx : List Chunk) (pb : HidIoPacketBuffer) rx' pb',
      rx_packetbuffer_decode rx pb = .ok (false, rx', pb') →
      rx' = [] := by
  intro rx
  induction rx with
  | nil =>
    intro pb rx' pb' h
    simp [rx_packetbuffer_decode] at h
    exact h.1
  | cons c rest ih =>
    intro pb rx' pb' h
    simp only [rx_packetbuffer_decode] at h
    cases hd : decode_packet pb c with
    | error e => rw [hd] at h; simp at h
    | ok pbd =>
      rw [hd] at h
      simp only at h
      by_cases hdone : pbd.done = true
      · rw [hdone] at h
        simp only [if_true] at h
        cases hp : pbd.ptype <;> rw [hp] at h <;> simp_all <;>
          exact ih _ _ _ h
      · rw [Bool.not_eq_true] at hdone
        rw [hdone] at h
        simp only [Bool.false_eq_true, if_false] at h
        exact ih _ _ _ h

/-- A completed decode round never hands a Sync packet to the caller
(completed Syncs are consumed inside the loop). -/
theorem rx_decode_true_not_sync :
    ∀ (rx : List Chunk) (pb : HidIoPacketBuffer) rx' pb',
      rx_packetbuffer_decode rx pb = .ok (true, rx', pb') →
      pb'.ptype ≠ HidIoPacketType.Sync := by
  intro rx
  induction rx with
  | nil => intro pb rx' pb' h; simp [rx_packetbuffer_decode] at h
  | cons c rest ih =>
    intro pb rx' pb' h
    simp only [rx_packetbuffer_decode] at h
    cases hd : decode_packet pb c with
    | error e => rw [hd] at h; simp at h
    | ok pbd =>
      rw [hd] at h
      simp only at h
      by_cases hdone : pbd.done = true
      · rw [hdone] at h
        simp only [if_true] at h
        cases hp : pbd.ptype <;> rw [hp] at h <;> simp_all <;>
          first
            | exact ih _ _ _ h
            | (intro hc; rw [← h.2.2] at hc; simp [hp] at hc)
      · rw [Bool.not_eq_true] at hdone
        rw [hdone] at h
        simp only [Bool.false_eq_true, if_false] at h
        exact ih _ _ _ h

/-- Unfolding `process_rx_aux` when the decode loop errors. -/
theorem process_rx_aux_step_error (count cur : Nat) (st : DispatchState)
    (e : CommandError) (hcond : count = 0 ∨ cur < count)
    (hdec : rx_packetbuffer_decode st.rx_bytebuf st.rx_packetbuf =
      .error e) :
    process_rx_aux count cur st = .error e := by
  rw [process_rx_aux.eq_def, if_pos hcond]
  split
  · rename_i e' heq
    rw [hdec] at heq
    injection heq with h1
    rw [h1]
  · rename_i rx' pb' heq
    rw [hdec] at heq
    exact absurd heq (by simp)
  · rename_i rx' pb' heq
    rw [hdec] at heq
    exact absurd heq (by simp)

/-- Unfolding `process_rx_aux` when the decode loop drains the buffer. -/
theorem process_rx_aux_step_false (count cur : Nat) (st : DispatchState)
    (rx' : List Chunk) (pb' : HidIoPacketBuffer)
    (hcond : count = 0 ∨ cur < count)
    (hdec : rx_packetbuffer_decode st.rx_bytebuf st.rx_packetbuf =
      .ok (false, rx', pb')) :
    process_rx_aux count cur st =
      .ok (cur, { st with rx_bytebuf := rx', rx_packetbuf := pb' }) := by
  rw [process_rx_aux.eq_def, if_pos hcond]
  split
  · rename_i e' heq
    rw [hdec] at heq
    exact absurd heq (by simp)
  · rename_i rx'' pb'' heq
    rw [hdec] at heq
    simp only [Except.ok.injEq, Prod.mk.injEq, true_and] at heq
    obtain ⟨h3, h4⟩ := heq
    subst h3; subst h4
    rfl
  · rename_i rx'' pb'' heq
    rw [hdec] at heq
    simp at heq

/-- Unfolding `process_rx_aux` when the decode loop completes a packet. -/
theorem process_rx_aux_step_true (count cur : Nat) (st : DispatchState)
    (rx' : List Chunk) (pb' : HidIoPacketBuffer)
    (hcond : count = 0 ∨ cur < count)
    (hdec : rx_packetbuffer_decode st.rx_bytebuf st.rx_packetbuf =
      .ok (true, rx', pb')) :
    process_rx_aux count cur st =
      process_rx_aux count (cur + 1)
        { rx_bytebuf := rx', rx_packetbuf := clearBuffer pb',
          handled := st.handled ++ [pb'] } := by
  rw [process_rx_aux.eq_def, if_pos hcond]
  split
  · rename_i e' heq
    rw [hdec] at heq
    exact absurd heq (by simp)
  · rename_i rx'' pb'' heq
    rw [hdec] at heq
    simp at heq
  · rename_i rx'' pb'' heq
    rw [hdec] at heq
    simp only [Except.ok.injEq, Prod.mk.injEq, true_and] at heq
    obtain ⟨h3, h4⟩ := heq
    subst h3; subst h4
    simp [rx_message_handling]

/-- Invariants of the `process_rx` loop, by functional induction: the
processed count only grows and respects a positive budget, a zero budget
drains the rx buffer, and the handler log is extended by exactly the
counted packets, none of which is a Sync. -/
theorem process_rx_aux_spec (count : Nat) :
    ∀ cur st n st', process_rx_aux count cur st = .ok (n, st') →
      cur ≤ n ∧
      (0 < count → cur ≤ count → n ≤ count) ∧
      (count = 0 → st'.rx_bytebuf = []) ∧
      ∃ tail, st'.handled = st.handled ++ tail ∧
        tail.length = n - cur ∧
        ∀ pb ∈ tail, pb.ptype ≠ HidIoPacketType.Sync := by
  intro cur st
  induction cur, st using process_rx_aux.induct count with
  | case1 cur st hcond e hdec =>
    intro n st' h
    rw [process_rx_aux_step_error count cur st e hcond hdec] at h
    exact absurd h (by simp)
  | case2 cur st hcond rx' pb' hdec =>
    intro n st' h
    rw [process_rx_aux_step_false count cur st rx' pb' hcond hdec] at h
    simp only [Except.ok.injEq, Prod.mk.injEq] at h
    obtain ⟨hn, hst⟩ := h
    subst hn
    refine ⟨le_refl _, fun _ hcur => hcur, fun hc => ?_, [], ?_, ?_, ?_⟩
    · rw [← hst]
      exact rx_decode_false_empty _ _ _ _ hdec
    · rw [← hst]
      simp
    · simp
    · simp
  | case3 cur st hcond rx' pb' hdec stLet ih =>
    intro n st' h
    rw [process_rx_aux_step_true count cur st rx' pb' hcond hdec] at h
    have hstLet :
        stLet =
          { rx_bytebuf := rx', rx_packetbuf := pb',
            handled := st.handled ++ [pb'] } :=
      rfl
    rw [hstLet] at ih
    obtain ⟨h1, h2, h3, tail, ht, hlen, hsync⟩ := ih n st' h
    refine ⟨by omega, fun hpos hcur => ?_, h3, pb' :: tail, ?_, ?_, ?_⟩
    · have hlt : cur < count := by
        rcases hcond with hc | hc
        · omega
        · exact hc
      exact h2 hpos (by omega)
    · simpa using ht
    · simp only [List.length_cons]
      omega
    · intro pb hpb
      rcases List.mem_cons.mp hpb with hpb | hpb
      · subst hpb
        exact rx_decode_true_not_sync _ _ _ _ hdec
      · exact hsync pb hpb
  | case4 cur st hcond =>
    intro n st' h
    rw [process_rx_aux.eq_def, if_neg hcond] at h
    simp only [Except.ok.injEq, Prod.mk.injEq] at h
    obtain ⟨hn, hst⟩ := h
    subst hn
    exact ⟨le_refl _, fun _ hcur => hcur,
      fun hc => absurd (Or.inl hc) hcond,
      [], by simp [← hst], by simp, by simp⟩

/-- The UID scan crosses a prefix of UIDs that are all held by
different-path nodes. -/
theorem scanUids_skip (nodes : List Endpoint) (path : String) :
    ∀ (pre rest : List Nat),
      (∀ v ∈ pre, ∃ n, nodes.find? (fun m => m.uid = v) = some n ∧
        n.path ≠ path) →
      scanUids nodes path (pre ++ rest) = scanUids nodes path rest := by
  intro pre
  induction pre with
  | nil => intro rest _; rfl
  | cons v pre' ih =>
    intro rest h
    obtain ⟨n, hf, hne⟩ := h v (by simp)
    simp only [List.cons_append, scanUids, hf]
    rw [if_neg hne]
    exact ih rest (fun x hx => h x (by simp [hx]))

/-- The UID scan comes back empty exactly when every recorded UID is held
by a live node with a different path. -/
theorem scanUids_none_iff (nodes : List Endpoint) (path : String) :
    ∀ uids, scanUids nodes path uids = none ↔
      ∀ u ∈ uids, ∃ n, nodes.find? (fun m => m.uid = u) = some n ∧
        n.path ≠ path := by
  intro uids
  induction uids with
  | nil => simp [scanUids]
  | cons u rest ih =>
    cases hf : nodes.find? (fun m => m.uid = u) with
    | some n =>
      by_cases hp : n.path = path
      · simp only [scanUids, hf, if_pos hp]
        constructor
        · intro h; exact absurd h (by simp)
        · intro hall
          obtain ⟨n', hf', hne⟩ := hall u (by simp)
          rw [hf] at hf'
          injection hf' with h1
          exact absurd hp (h1 ▸ hne)
      · simp only [scanUids, hf, if_neg hp]
        rw [ih]
        constructor
        · intro hall
          intro x hx
          rcases List.mem_cons.mp hx with hx | hx
          · subst hx; exact ⟨n, hf, hp⟩
          · exact hall x hx
        · intro hall x hx
          exact hall x (by simp [hx])
    | none =>
      simp only [scanUids, hf]
      constructor
      · intro h; exact absurd h (by simp)
      · intro hall
        obtain ⟨n', hf', _⟩ := hall u (by simp)
        rw [hf] at hf'
        exact absurd hf' (by simp)

/-- When no recorded UID is 0, the scan returns the in-band error marker
`some 0` exactly when — walking the recorded UIDs in order — the first
UID that is not held by a different-path node is held by a node with the
requested path. -/
theorem scanUids_some_zero_iff (nodes : List Endpoint) (path : String) :
    ∀ uids, (∀ u ∈ uids, u ≠ 0) →
      (scanUids nodes path uids = some 0 ↔
        ∃ pre u suf, uids = pre ++ u :: suf ∧
          (∀ v ∈ pre, ∃ n, nodes.find? (fun m => m.uid = v) = some n ∧
            n.path ≠ path) ∧
          (∃ n, nodes.find? (fun m => m.uid = u) = some n ∧
            n.path = path)) := by
  intro uids
  induction uids with
  | nil =>
    intro _
    simp [scanUids]
  | cons u rest ih =>
    intro h0
    cases hf : nodes.find? (fun m => m.uid = u) with
    | some n =>
      by_cases hp : n.path = path
      · simp only [scanUids, hf, if_pos hp]
        constructor
        · intro _
          exact ⟨[], u, rest, rfl, by simp, n, hf, hp⟩
        · intro _; trivial
      · simp only [scanUids, hf, if_neg hp]
        rw [ih (fun x hx => h0 x (by simp [hx]))]
        constructor
        · rintro ⟨pre, w, suf, hsplit, hpre, hw⟩
          exact ⟨u :: pre, w, suf, by simp [hsplit],
            by
              intro v hv
              rcases List.mem_cons.mp hv with hv | hv
              · subst hv; exact ⟨n, hf, hp⟩
              · exact hpre v hv,
            hw⟩
        · rintro ⟨pre, w, suf, hsplit, hpre, hw⟩
          cases pre with
          | nil =>
            simp only [List.nil_append, List.cons.injEq] at hsplit
            obtain ⟨huw, hrest⟩ := hsplit
            obtain ⟨n', hf', hp'⟩ := hw
            rw [← huw, hf] at hf'
            injection hf' with h1
            subst h1
            exact absurd hp' hp
          | cons p pre' =>
            simp only [List.cons_append, List.cons.injEq] at hsplit
            obtain ⟨hup, hrest⟩ := hsplit
            exact ⟨pre', w, suf, hrest,
              fun v hv => hpre v (by simp [hv]), hw⟩
    | none =>
      simp only [scanUids, hf]
      have hu0 : u ≠ 0 := h0 u (by simp)
      constructor
      · intro h
        injection h with h1
        exact absurd h1 hu0
      · rintro ⟨pre, w, suf, hsplit, hpre, n', hf', hp'⟩
        cases pre with
        | nil =>
          simp only [List.nil_append, List.cons.injEq] at hsplit
          rw [← hsplit.1, hf] at hf'
          exact absurd hf' (by simp)
        | cons p pre' =>
          simp only [List.cons_append, List.cons.injEq] at hsplit
          obtain ⟨n'', hf'', _⟩ := hpre p (by simp)
          rw [← hsplit.1, hf] at hf''
          exact absurd hf'' (by simp)

/-! ## Claim theorems -/

/-- C3: `ack_wait` considers only messages matching both the requested
source and command id; among those it returns the first ACK as `Ok`,
turns the first NAK into `NAKReceived`, skips Data/Continued and the
no-ack types, errors with `TooManySyncs` once a `(max_syncs + 1)`-th Sync
arrives with no earlier ACK/NAK (with `max_syncs = 2`, at the third
Sync), and reports `Invalid` when the bus closes first. -/
theorem c3_ack_wait_spec :
    (∀ (src : Address) (id n : Nat) (m : Message) stream,
        ackWaitMatches src id m = false →
        ack_wait src id n (m :: stream) = ack_wait src id n stream) ∧
    (∀ (src : Address) (id n : Nat) stream pre (m : Message) suf,
        stream.filter (ackWaitMatches src id) = pre ++ m :: suf →
        (∀ p ∈ pre, p.data.ptype ≠ HidIoPacketType.ACK ∧
                    p.data.ptype ≠ HidIoPacketType.NAK) →
        syncCount pre ≤ n →
        (m.data.ptype = .ACK → ack_wait src id n stream = .ok m) ∧
        (m.data.ptype = .NAK →
          ack_wait src id n stream = .error (.NAKReceived m))) ∧
    (∀ (src : Address) (id n : Nat) stream pre suf,
        stream.filter (ackWaitMatches src id) = pre ++ suf →
        (∀ p ∈ pre, p.data.ptype ≠ HidIoPacketType.ACK ∧
                    p.data.ptype ≠ HidIoPacketType.NAK) →
        n < syncCount pre →
        ack_wait src id n stream = .error .TooManySyncs) ∧
    (∀ (src : Address) (id n : Nat) stream,
        (∀ p ∈ stream.filter (ackWaitMatches src id),
          p.data.ptype ≠ HidIoPacketType.ACK ∧
          p.data.ptype ≠ HidIoPacketType.NAK) →
        syncCount (stream.filter (ackWaitMatches src id)) ≤ n →
        ack_wait src id n stream = .error .Invalid) ∧
    (ack_wait (.DeviceHidio 1) 22 2
        (List.replicate 3
          { src := .DeviceHidio 1, dst := .All,
            data := { ptype := .Sync, id := 22, max_len := 64,
                      done := true } }) =
        .error .TooManySyncs ∧
     ack_wait (.DeviceHidio 1) 22 2
        (List.replicate 2
          { src := .DeviceHidio 1, dst := .All,
            data := { ptype := .Sync, id := 22, max_len := 64,
                      done := true } }) =
        .error .Invalid) := by
  refine ⟨?_, ?_, ?_, ?_, rfl, rfl⟩
  · intro src id n m stream hf
    simp [ack_wait, List.filter_cons, hf]
  · intro src id n stream pre m suf hfil hpre hsync
    have hskip := (ackWaitLoop_skip pre (m :: suf) n hpre).1 hsync
    constructor
    · intro hack
      rw [ack_wait, hfil, hskip]
      simp [ackWaitLoop, hack]
    · intro hnak
      rw [ack_wait, hfil, hskip]
      simp [ackWaitLoop, hnak]
  · intro src id n stream pre suf hfil hpre hlt
    rw [ack_wait, hfil]
    exact (ackWaitLoop_skip pre suf n hpre).2 hlt
  · intro src id n stream hall hsync
    rw [ack_wait, ← List.append_nil (stream.filter (ackWaitMatches src id))]
    rw [(ackWaitLoop_skip _ [] n hall).1 hsync]
    rfl

/-- C8: a successful `process_rx` pass services at most `count` completed
packets when `count > 0` and leaves the rx byte buffer empty when
`count = 0`; the handler is invoked on exactly the counted packets and
never on a Sync — a lone completed Sync resets the reassembly buffer,
reaches no handler and is not counted. -/
theorem c8_process_rx_budget_and_sync_silent (count : Nat)
    (st : DispatchState) (n : Nat) (st' : DispatchState)
    (h : process_rx count st = .ok (n, st')) :
    ((0 < count → n ≤ count) ∧
     (count = 0 → st'.rx_bytebuf = []) ∧
     (∃ tail, st'.handled = st.handled ++ tail ∧ tail.length = n ∧
        ∀ pb ∈ tail, pb.ptype ≠ HidIoPacketType.Sync)) ∧
    process_rx 0
        { rx_bytebuf := [{ ctype := .Sync }],
          rx_packetbuf := createBuffer 64 } =
      .ok (0, { rx_bytebuf := [], rx_packetbuf := createBuffer 64 }) := by
  obtain ⟨h1, h2, h3, tail, ht, hlen, hsync⟩ :=
    process_rx_aux_spec count 0 st n st' h
  refine ⟨⟨fun hc => h2 hc (by omega), h3,
    ⟨tail, ht, by omega, hsync⟩⟩, ?_⟩
  rw [process_rx, process_rx_aux_step_false 0 0 _ [] (createBuffer 64)
    (Or.inl rfl) (by rfl)]

/-- Witness for C8: draining a buffer holding one Sync chunk and one
completed Data chunk with `count = 0` processes exactly the Data packet,
empties the buffer, and hands only the non-Sync packet to the handler. -/
theorem c8_process_rx_budget_and_sync_silent_witness :
    (0 < 0 → 1 ≤ 0) ∧
    (0 = 0 →
      (({ rx_bytebuf := [],
          rx_packetbuf := createBuffer 64,
          handled := [{ ptype := .Data, id := 4, max_len := 64,
                        data := [9], done := true }] } :
        DispatchState)).rx_bytebuf = []) ∧
    (∃ tail,
      ({ rx_bytebuf := [],
         rx_packetbuf := createBuffer 64,
         handled := [{ ptype := .Data, id := 4, max_len := 64,
                       data := [9], done := true }] } :
        DispatchState).handled = [] ++ tail ∧ tail.length = 1 ∧
        ∀ pb ∈ tail, pb.ptype ≠ HidIoPacketType.Sync) :=
  (c8_process_rx_budget_and_sync_silent 0
    { rx_bytebuf := [{ ctype := .Sync },
                     { ctype := .Data, id := 4, payload := [9] }],
      rx_packetbuf := createBuffer 64 } 1
    { rx_bytebuf := [],
      rx_packetbuf := createBuffer 64,
      handled := [{ ptype := .Data, id := 4, max_len := 64,
                    data := [9], done := true }] }
    (by
      rw [process_rx,
        process_rx_aux_step_true 0 0 _ [] _ (Or.inl rfl) (by rfl),
        process_rx_aux_step_false 0 1 _ [] (createBuffer 64)
          (Or.inl rfl) (by rfl)]
      rfl)).1

/-- Witness for C3: a single matching ACK message is returned as `Ok`. -/
theorem c3_ack_wait_spec_witness :
    ack_wait (.DeviceHidio 1) 22 2
        [{ src := .DeviceHidio 1, dst := .Module,
           data := { ptype := .ACK, id := 22, max_len := 64,
                     done := true } }] =
      .ok { src := .DeviceHidio 1, dst := .Module,
            data := { ptype := .ACK, id := 22, max_len := 64,
                      done := true } } :=
  (c3_ack_wait_spec.2.1 (.DeviceHidio 1) 22 2
    [{ src := .DeviceHidio 1, dst := .Module,
       data := { ptype := .ACK, id := 22, max_len := 64,
                 done := true } }]
    [] _ [] rfl (by simp) (by simp [syncCount])).1 rfl

/-- C4 counterexample: in the reachable state `c4State` a live registered
node holds `(kbd, /B)`, yet `assign_uid(kbd, /B)` does not fail — it
returns the released UID 1, because the scan meets the free recorded
UID 1 before the live UID 2. -/
theorem c4_counterexample_live_pair_not_rejected :
    (∃ n ∈ c4State.nodes, n.key = "kbd" ∧ n.path = "/B") ∧
    (assign_uid c4State "kbd" "/B").1 = .ok 1 := by
  constructor
  · have h : c4State.nodes = [{ uid := 2, key := "kbd", path := "/B" }] :=
      rfl
    exact ⟨{ uid := 2, key := "kbd", path := "/B" },
      by rw [h]; exact List.mem_singleton_self _, rfl, rfl⟩
  · rfl

/-- C4 amended: `assign_uid(key, path)` scans the UIDs recorded for `key`
in recording order: it fails exactly when the first recorded UID that is
not held by a different-path live node is held by a live node with the
same path; it returns a recorded UID reached by the scan that no live
node holds; when every recorded UID is held by a different-path live
node (or none is recorded) it returns the freshly incremented `last_uid`,
which no live node holds; and the register/unregister/re-register
scenario still yields UID 1, then UID 1 again, then UID 2. -/
theorem c4_assign_uid_amended (st : MailboxState) (key path : String)
    (hwf : WFMailbox st) :
    ((assign_uid st key path).1 = .error () ↔
      ∃ pre u suf, lookupGet st.lookup key = pre ++ u :: suf ∧
        (∀ v ∈ pre, heldOtherPath st path v) ∧ heldSamePath st path u) ∧
    (∀ pre u suf, lookupGet st.lookup key = pre ++ u :: suf →
        (∀ v ∈ pre, heldOtherPath st path v) → uidFree st u →
        (assign_uid st key path).1 = .ok u) ∧
    ((∀ v ∈ lookupGet st.lookup key, heldOtherPath st path v) →
        (assign_uid st key path).1 = .ok (st.last_uid + 1) ∧
        ∀ n ∈ st.nodes, n.uid ≠ st.last_uid + 1) ∧
    ((assign_uid {} "kbd" "/A").1 = .ok 1 ∧
     (assign_uid (unregister_node (register_node
        (assign_uid {} "kbd" "/A").2
        { uid := 1, key := "kbd", path := "/A" }) 1) "kbd" "/A").1 =
       .ok 1 ∧
     (assign_uid (register_node
        (assign_uid (unregister_node (register_node
          (assign_uid {} "kbd" "/A").2
          { uid := 1, key := "kbd", path := "/A" }) 1) "kbd" "/A").2
        { uid := 1, key := "kbd", path := "/A" }) "kbd" "/B").1 =
       .ok 2) := by
  have hne0 : ∀ u ∈ lookupGet st.lookup key, u ≠ 0 := by
    intro u hu
    unfold lookupGet at hu
    cases hf : st.lookup.find? (fun e => e.1 = key) with
    | some e =>
      rw [hf] at hu
      have := (hwf.2 e (List.mem_of_find?_eq_some hf) u hu).1
      omega
    | none => rw [hf] at hu; simp at hu
  have hget : get_uid st key path =
      scanUids st.nodes path (lookupGet st.lookup key) := rfl
  have herr : (assign_uid st key path).1 = .error () ↔
      get_uid st key path = some 0 := by
    rcases hg : get_uid st key path with - | u
    · simp [assign_uid, hg]
    · cases u with
      | zero => simp [assign_uid, hg]
      | succ v => simp [assign_uid, hg]
  refine ⟨?_, ?_, ?_, rfl, rfl, rfl⟩
  · rw [herr, hget,
      scanUids_some_zero_iff st.nodes path (lookupGet st.lookup key) hne0]
    simp only [heldOtherPath, heldSamePath, findNode]
  · intro pre u suf hsplit hpre hfree
    have hscan : scanUids st.nodes path (lookupGet st.lookup key) =
        some u := by
      rw [hsplit, scanUids_skip st.nodes path pre (u :: suf)
        (by simpa only [heldOtherPath, findNode] using hpre)]
      simp only [scanUids]
      rw [show st.nodes.find? (fun m => m.uid = u) = none from hfree]
    have hg : get_uid st key path = some u := hget.trans hscan
    have hu0 : u ≠ 0 := by
      refine hne0 u ?_
      rw [hsplit]
      exact List.mem_append.mpr (Or.inr (by simp))
    cases u with
    | zero => exact absurd rfl hu0
    | succ v => simp [assign_uid, hg]
  · intro hall
    have hscan : scanUids st.nodes path (lookupGet st.lookup key) =
        none :=
      (scanUids_none_iff st.nodes path (lookupGet st.lookup key)).mpr
        (by simpa only [heldOtherPath, findNode] using hall)
    have hg : get_uid st key path = none := hget.trans hscan
    refine ⟨by simp [assign_uid, hg], fun n hn => ?_⟩
    have := hwf.1 n hn
    omega

/-- Witness for C4's amended theorem: in the reachable state `c4State`
the recorded list for `kbd` is `[1, 2]`, UID 1 is free, so the scan
returns it. -/
theorem c4_assign_uid_amended_witness :
    (assign_uid c4State "kbd" "/B").1 = .ok 1 :=
  (c4_assign_uid_amended c4State "kbd" "/B"
    (by unfold WFMailbox; decide)).2.1 [] 1 [2]
    rfl (by simp) rfl

/-- C9: the Test command (id 0x0002) cmd handler acks with a payload
byte-for-byte identical to the request payload and never returns Nak. -/
theorem c9_h0002_test_cmd_echoes_payload (payload : List Nat) :
    h0002_test_cmd { data := payload } = .ok { data := payload } := rfl

/-- C7: the Info ack response handler updates exactly the host-info field
named by the ack's property and leaves every other field unchanged;
properties outside the handled set are rejected with `InvalidProperty`
and leave the record untouched; acking MajorVersion, MinorVersion and
PatchVersion with 1, 2 and 3 leaves the record reading (1, 2, 3). -/
theorem c7_h0001_info_ack_frame (a : InfoAck) (st : HidioHostInfo) :
    (∀ st', h0001_info_ack a st = .ok st' →
      (st'.major_version =
        if a.property = .MajorVersion then a.number
        else st.major_version) ∧
      (st'.minor_version =
        if a.property = .MinorVersion then a.number
        else st.minor_version) ∧
      (st'.patch_version =
        if a.property = .PatchVersion then a.number
        else st.patch_version) ∧
      (st'.os = if a.property = .OsType then a.os else st.os) ∧
      (st'.os_version =
        if a.property = .OsVersion then a.string else st.os_version) ∧
      (st'.host_software_name =
        if a.property = .HostSoftwareName then a.string
        else st.host_software_name)) ∧
    (a.property ∉ ([.MajorVersion, .MinorVersion, .PatchVersion, .OsType,
        .OsVersion, .HostSoftwareName] : List Property) →
      h0001_info_ack a st =
        .error (.InvalidProperty8 (propertyCode a.property))) ∧
    (h0001_info_ack { property := .MajorVersion, number := 1 } {} >>=
       h0001_info_ack { property := .MinorVersion, number := 2 } >>=
       h0001_info_ack { property := .PatchVersion, number := 3 } =
     .ok { major_version := 1, minor_version := 2,
           patch_version := 3 }) := by
  refine ⟨?_, ?_, rfl⟩
  · intro st' h
    obtain ⟨p, os, num, str⟩ := a
    cases p <;> simp [h0001_info_ack] at h <;> subst h <;> simp
  · intro hnot
    obtain ⟨p, os, num, str⟩ := a
    cases p <;> simp at hnot <;> simp [h0001_info_ack, propertyCode]

/-- Witness for C7: a DeviceName ack is outside the handled set and is
rejected with the property's code, leaving the record unchanged. -/
theorem c7_h0001_info_ack_frame_witness :
    h0001_info_ack { property := .DeviceName, number := 7 } {} =
      .error (.InvalidProperty8 (propertyCode .DeviceName)) :=
  (c7_h0001_info_ack_frame { property := .DeviceName, number := 7 }
    {}).2.1 (by decide)

/-- C10: `hidio_tx_bytes` gates the caller's length against the `TxBuf`
chunk count 8 (not the 64-byte chunk size): larger lengths fail with
`ErrorBufSizeTooLarge`, smaller with `ErrorBufSizeTooSmall`; at length 8
an empty tx buffer reports `BufferEmpty` with no state change, and
otherwise exactly one chunk is dequeued with only `len` of its bytes
copied to the caller. -/
theorem c10_hidio_tx_bytes_spec (intf : Option ByteBufState)
    (st : ByteBufState) (len : Nat) :
    (TxBuf = 8 ∧ TxBuf ≠ BufChunk) ∧
    ((hidio_tx_bytes intf len).1 = .Success → len = TxBuf) ∧
    (len > TxBuf → hidio_tx_bytes intf len =
      (.ErrorBufSizeTooLarge, [], intf)) ∧
    (len < TxBuf → hidio_tx_bytes intf len =
      (.ErrorBufSizeTooSmall, [], intf)) ∧
    (len = TxBuf → intf = some st →
      (st.tx_bytebuf = [] →
        hidio_tx_bytes intf len = (.BufferEmpty, [], some st)) ∧
      (∀ chunk rest, st.tx_bytebuf = chunk :: rest →
        hidio_tx_bytes intf len =
          (.Success, chunk.take len,
           some { st with tx_bytebuf := rest }))) := by
  refine ⟨⟨rfl, by decide⟩, ?_, ?_, ?_, ?_⟩
  · intro h
    by_cases h1 : len > TxBuf
    · simp [hidio_tx_bytes, h1] at h
    · by_cases h2 : len < TxBuf
      · simp [hidio_tx_bytes, h1, h2] at h
      · omega
  · intro h1; simp [hidio_tx_bytes, h1]
  · intro h2
    have h1 : ¬ len > TxBuf := by omega
    simp [hidio_tx_bytes, h1, h2]
  · intro hlen hintf
    subst hintf
    have h1 : ¬ len > TxBuf := by omega
    have h2 : ¬ len < TxBuf := by omega
    constructor
    · intro hb; simp [hidio_tx_bytes, h1, h2, hb]
    · intro chunk rest hb; simp [hidio_tx_bytes, h1, h2, hb]

/-- Witness for C10: at length 8 with one 9-byte chunk queued, exactly
that chunk is dequeued and its first 8 bytes are copied out. -/
theorem c10_hidio_tx_bytes_spec_witness :
    hidio_tx_bytes (some { tx_bytebuf := [[1, 2, 3, 4, 5, 6, 7, 8, 9]] })
        8 =
      (.Success, [1, 2, 3, 4, 5, 6, 7, 8],
       some { tx_bytebuf := [] }) := by
  have h := (c10_hidio_tx_bytes_spec
    (some { tx_bytebuf := [[1, 2, 3, 4, 5, 6, 7, 8, 9]] })
    { tx_bytebuf := [[1, 2, 3, 4, 5, 6, 7, 8, 9]] } 8).2.2.2.2 rfl rfl
  simpa using h.2 [1, 2, 3, 4, 5, 6, 7, 8, 9] [] rfl

/-- C5: the rx length gate of `hidio_rx_bytes` compares against the
`RxBuf` chunk count 8 instead of the 64-byte `BufChunk` size: a 10-byte
chunk — well within the 64-byte chunk size, with the buffer empty — is
rejected with `ErrorBufSizeTooLarge` and nothing is enqueued. -/
theorem c5_hidio_rx_bytes_rejects_midsize_chunk :
    hidio_rx_bytes (some {}) (List.replicate 10 0) =
      (.ErrorBufSizeTooLarge, some {}) ∧
    (List.replicate 10 0).length ≤ BufChunk ∧
    ({} : ByteBufState).rx_bytebuf.length < RxBuf := by decide

/-- C1: processing a completed inbound ACK packet — and a completed
inbound no-ack NAData packet — makes the controller write an empty-payload
Ack to the transport, despite the source's own "Don't ack an ack"
comment: the `done` check sits outside the packet-type match. -/
theorem c1_process_acks_ack_and_noack_packets :
    (process 7 64 (createBuffer 64)
        (.chunk 1 { ctype := .ACK, id := 5 }) false [] false).sent =
      [sendAckPacket 5 []] ∧
    (process 7 64 (createBuffer 64)
        (.chunk 1 { ctype := .NAData, id := 6, payload := [2] }) false []
        false).sent =
      [sendAckPacket 6 []] ∧
    (process 7 64 (createBuffer 64)
        (.chunk 1 { ctype := .Data, id := 4, payload := [9] }) false []
        false).published =
      [Message.mk (.DeviceHidio 7) .All
        { ptype := .Data, id := 4, max_len := 64, data := [9],
          done := true }] := by
  decide

/-- C2 counterexample: a chunk whose decoding fails (an unexpected
continuation on an empty reassembly buffer) makes `process` terminate
the whole process with exit code 2 — the protocol fault is not handled
by resetting the buffer and continuing. -/
theorem c2_counterexample_decode_error_exits :
    process 7 64 (createBuffer 64)
        (.chunk 2 { ctype := .Continued, payload := [1] }) false []
        false =
      { outcome := .exited 2, sent := [], published := [],
        received := createBuffer 64 } := by
  decide

/-- C2 amended: on any chunk whose decoding fails, `recv_chunk` exits the
process with code 2, so the controller's step ends in a terminal process
exit with no ack written, no message published and no buffer reset. -/
theorem c2_amended_decode_error_terminal
    (received : HidIoPacketBuffer) (len : Nat) (c : Chunk)
    (e : DecodeError) (uid maxLen : Nat) (syncElapsed : Bool)
    (pending : List Message) (closed : Bool)
    (h : decode_packet received c = .error e) :
    recv_chunk received (.chunk len c) = .exited 2 ∧
    process uid maxLen received (.chunk len c) syncElapsed pending
        closed =
      { outcome := .exited 2, sent := [], published := [],
        received } := by
  have hr : recv_chunk received (.chunk len c) = .exited 2 := by
    simp [recv_chunk, h]
  exact ⟨hr, by simp [process, hr]⟩

/-- Witness for C2's amended theorem: the unexpected-continuation chunk
instantiates it. -/
theorem c2_amended_decode_error_terminal_witness :
    recv_chunk (createBuffer 64)
        (.chunk 2 { ctype := .Continued, payload := [1] }) =
      .exited 2 ∧
    process 7 64 (createBuffer 64)
        (.chunk 2 { ctype := .Continued, payload := [1] }) false []
        false =
      { outcome := .exited 2, sent := [], published := [],
        received := createBuffer 64 } :=
  c2_amended_decode_error_terminal (createBuffer 64) 2
    { ctype := .Continued, payload := [1] } .UnexpectedContinuation 7 64
    false [] false rfl

/-- C6 counterexample: replying with `Message::send_ack` to a message
whose destination was the broadcast address — exactly what the endpoint
controller publishes — produces a message whose source is `All`. -/
theorem c6_counterexample_reply_to_broadcast_has_src_all :
    (Message.sendAckMessage
      { src := .DeviceHidio 1, dst := .All, data := {} } []).src =
      Address.All := rfl

/-- C6 amended: the endpoint controller itself only publishes from its
own `DeviceHidio` address (never `All`), and `send_command` keeps the
caller-supplied source; but `send_ack`/`send_nak` set the reply's source
to the original message's destination, so a reply to a broadcast
(`dst = All`) message carries `src = All`. -/
theorem c6_amended_src_discipline :
    (∀ uid maxLen received ev syncElapsed pending closed m,
        m ∈ (process uid maxLen received ev syncElapsed pending
              closed).published →
        m.src = Address.DeviceHidio uid ∧ m.src ≠ Address.All) ∧
    (∀ src dst id data, (sendCommandMessage src dst id data).src = src) ∧
    (∀ m data, (Message.sendAckMessage m data).src = m.dst) ∧
    (∀ m data, (Message.sendNakMessage m data).src = m.dst) := by
  refine ⟨?_, fun _ _ _ _ => rfl, fun _ _ => rfl, fun _ _ => rfl⟩
  intro uid maxLen received ev syncElapsed pending closed m hm
  rcases process_published_shape uid maxLen received ev syncElapsed
    pending closed with h | ⟨d, h⟩ <;> rw [h] at hm
  · simp at hm
  · simp at hm
    subst hm
    exact ⟨rfl, by simp⟩

/-- Witness for C6's amended theorem: the message published for a
completed Data packet carries the endpoint's own address as source. -/
theorem c6_amended_src_discipline_witness :
    (Message.mk (.DeviceHidio 7) .All
      { ptype := .Data, id := 4, max_len := 64, data := [9],
        done := true }).src = Address.DeviceHidio 7 ∧
    (Message.mk (.DeviceHidio 7) .All
      { ptype := .Data, id := 4, max_len := 64, data := [9],
        done := true }).src ≠ Address.All :=
  c6_amended_src_discipline.1 7 64 (createBuffer 64)
    (.chunk 1 { ctype := .Data, id := 4, payload := [9] }) false [] false
    _ (by decide)

end HidIoCore
